import Mathlib

/-!
Shallow embedding of the transfer engine of the `cpan115` repository
(`src/cpan115/Uploader.py` and `src/cpan115/Downloader.py`).

The network, the OSS client and the local file system are the environment:
each model function takes the replies / events it would receive from them as
explicit arguments and returns, besides the value the Python function returns,
the effects it performed (which remote calls were made, what happened to the
file system).  Machine-level details (HTTP, threads) are abstracted as in the
spec: a concurrent fan-out is modelled by the list of worker completions in
completion order.
-/

namespace Cpan115

/-! ## JSON response modelling (Uploader side) -/

/-- Fields of one `data` item of an upload-init JSON reply, as the code reads
them via `item.get(...)` in `Uploader.init_with_auto_sign` / `upload_file`. -/
structure InitItem where
  status : Option Int := none
  code : Option Int := none
  sign_check : Option String := none
  sign_key : Option String := none
  deriving Repr, DecidableEq

/-- The `data` field of a 115 JSON reply, in the shapes `Uploader._extract_data`
distinguishes: absent, a dict, a list (of dicts), or anything else. -/
inductive RespData where
  | missing
  | dict (d : InitItem)
  | list (l : List InitItem)
  | other
  deriving Repr, DecidableEq

/-- An upload-init JSON reply: top-level `code` plus the `data` payload. -/
structure InitResp where
  state : Bool := true
  code : Option Int := none
  data : RespData := .missing
  deriving Repr, DecidableEq

/-- `Uploader._extract_data` (Uploader.py lines 497-506): first `data` item of a
list, the dict itself, or an empty dict. -/
def extractData (r : InitResp) : InitItem :=
  match r.data with
  | .dict d => d
  | .list [] => {}
  | .list (d :: _) => d
  | _ => {}

/-- Python `str(x)` applied to an optional string: `str(None)` is `"None"`. -/
def pyStr : Option String → String
  | none => "None"
  | some s => s

/-- Python truthiness of a string: nonempty. -/
def strTruthy (s : String) : Bool := s != ""

/-- Python `a or b` on optional ints: `None` and `0` are falsy. -/
def pyOrInt : Option Int → Option Int → Option Int
  | some v, b => if v = 0 then b else some v
  | none, b => b

/-- The `status in {6, 7, 8}` test of `init_with_auto_sign` (line 218);
`None in {6,7,8}` is false. -/
def statusNeedsSign : Option Int → Bool
  | some s => s == 6 || s == 7 || s == 8
  | none => false

/-- The `code in {700, 701, 702}` test of `init_with_auto_sign` (line 218). -/
def codeNeedsSign : Option Int → Bool
  | some c => c == 700 || c == 701 || c == 702
  | none => false

/-- The condition under which `Uploader.init` bumps its "instant upload"
logging counter (Uploader.py line 134): `(status == 2 and sign_key == "") or
status == 1`, with `data.get("sign_key", "")`. -/
def initLogsInstant (resp : InitResp) : Bool :=
  let d := extractData resp
  (d.status == some 2 && d.sign_key.getD "" == "") || d.status == some 1

/-! ## Second-factor digest (`utils/sha.py`, modelled from the spec) -/

/-- Value of a decimal digit character, if it is one. -/
def digitVal (c : Char) : Option Nat :=
  if c = '0' then some 0 else if c = '1' then some 1 else if c = '2' then some 2
  else if c = '3' then some 3 else if c = '4' then some 4 else if c = '5' then some 5
  else if c = '6' then some 6 else if c = '7' then some 7 else if c = '8' then some 8
  else if c = '9' then some 9 else none

/-- Accumulate decimal digits; fail on a non-digit. -/
def parseDigitsAux (acc : Nat) : List Char → Option Nat
  | [] => some acc
  | c :: rest =>
      match digitVal c with
      | some d => parseDigitsAux (acc * 10 + d) rest
      | none => none

/-- Parse a nonempty all-digit character list as a decimal number. -/
def parseDecimalChars : List Char → Option Nat
  | [] => none
  | l => parseDigitsAux 0 l

/-- Split a character list at `'-'` occurrences. -/
def splitDashAux (acc : List Char) : List Char → List (List Char)
  | [] => [acc.reverse]
  | c :: rest =>
      if c = '-' then acc.reverse :: splitDashAux [] rest
      else splitDashAux (c :: acc) rest

/-- Modelled from the spec: the byte range a `sign_check` challenge specifies
(spec §4.3: "read the exact byte range specified by `sign_check`").  The
repository's `utils/sha.py` is absent from `src/`; the service's challenge is
a decimal `"start-end"` pair, and a string of any other shape — such as the
`"None"` that an absent field stringifies to — specifies no byte range and is
a parse error. -/
def parseSignCheck (s : String) : Option (Nat × Nat) :=
  match splitDashAux [] s.data with
  | [a, b] =>
      match parseDecimalChars a, parseDecimalChars b with
      | some x, some y => if x ≤ y then some (x, y) else none
      | _, _ => none
  | _ => none

/-- Modelled from the spec: `calc_sign_val` of the absent `utils/sha.py`, per
spec §4.3 — parse the `sign_check` challenge as a byte range, read exactly
that range from the local file, and return its digest; a parse error or a
local read failure is a raised error (`Failed` per §4.3, "network or parse
errors at any step").  `fileBytes` is the local file's content (`none` = the
file is unreadable) and `digest` abstracts the hash algorithm, which no claim
depends on — the theorems below quantify over it. -/
def calcSignVal (digest : List Nat → String) (fileBytes : Option (List Nat))
    (signCheck : String) : Except String String :=
  match parseSignCheck signCheck with
  | none => .error ("无法解析 sign_check: " ++ signCheck)
  | some (a, b) =>
      match fileBytes with
      | none => .error "读取本地文件失败"
      | some bytes => .ok (digest ((bytes.drop a).take (b - a + 1)))

/-- An arbitrary digest instantiation for the closed statements below; on
their runs the digest is never applied or its value never inspected, and the
quantified theorems hold for every digest. -/
def constDigest : List Nat → String := fun _ => "d0"

/-! ## Upload negotiation (`init_with_auto_sign`, `upload_file`) -/

/-- The environment one `upload_file` run interacts with: the reply to the
first `init` call, the reply to the (at most one) resubmitted `init`, the
local file's content (`none` = unreadable; read by `calc_sign_val` when a
second factor is demanded), and the outcome of the token + OSS phase.
`tokenError` / `ossError` being `some e` means `get_token` resp.
`upload_to_oss` raises `e`; when `upload_to_oss` returns normally it always
returns `{"state": True, ...}` (Uploader.py line 296), so no separate boolean
is carried. -/
structure UploadEnv where
  initResp : InitResp := {}
  initResp2 : InitResp := {}
  fileBytes : Option (List Nat) := some []
  tokenError : Option String := none
  ossError : Option String := none
  deriving Repr, DecidableEq

/-- `Uploader.init_with_auto_sign` (Uploader.py lines 169-226): call `init`;
on `status == 2` return the reply; otherwise, when
`(status in {6,7,8} or code in {700,701,702})` and the *stringified*
`sign_check` / `sign_key` are truthy, compute
`sign_val = calc_sign_val(file_name, sign_check)` (line 220; it parses the
challenge and reads the local file, and its failure propagates as a raised
error before any resubmission) and then resubmit `init` once, returning that
second reply unconditionally.  Returns the reply handed to the caller (or the
raised error) and the number of `init` calls made. -/
def initWithAutoSign (digest : List Nat → String) (env : UploadEnv) :
    Except String InitResp × Nat :=
  let resp := env.initResp
  let item := extractData resp
  let code := pyOrInt item.code resp.code
  if item.status = some 2 then (.ok resp, 1)
  else
    if (statusNeedsSign item.status || codeNeedsSign code)
        && strTruthy (pyStr item.sign_check) && strTruthy (pyStr item.sign_key) then
      match calcSignVal digest env.fileBytes (pyStr item.sign_check) with
      | .error e => (.error e, 1)
      | .ok _ => (.ok env.initResp2, 2)
    else (.ok resp, 1)

/-- The remote calls one `upload_file` run performed. -/
structure UploadEffects where
  initCalls : Nat
  tokenRequested : Bool
  ossInvoked : Bool
  deriving Repr, DecidableEq

/-- `Uploader.upload_file` (Uploader.py lines 300-355): run
`init_with_auto_sign` (whose raised errors propagate); if the extracted
`status` is `2`, return `True` at once; otherwise request the upload token
and hand off to `upload_to_oss`, returning `True` iff its reply has a truthy
`state` (which a normal return always has).  Exceptions of the token / OSS
phase propagate. -/
def uploadFile (digest : List Nat → String) (env : UploadEnv) :
    Except String Bool × UploadEffects :=
  let r := initWithAutoSign digest env
  match r.1 with
  | .error e => (.error e, ⟨r.2, false, false⟩)
  | .ok resp =>
    let item := extractData resp
    if item.status = some 2 then
      (.ok true, ⟨r.2, false, false⟩)
    else
      match env.tokenError with
      | some e => (.error e, ⟨r.2, true, false⟩)
      | none =>
        match env.ossError with
        | some e => (.error e, ⟨r.2, true, true⟩)
        | none => (.ok true, ⟨r.2, true, true⟩)

/-- Environment whose first `init` reply carries `status 1` and no challenge. -/
def envStatus1 : UploadEnv :=
  { initResp := { state := true, code := none, data := .dict { status := some 1 } } }

/-- Environment whose first `init` reply has `status 7` but carries neither a
`sign_check` challenge nor a `sign_key`. -/
def envAbsentChallenge : UploadEnv :=
  { initResp := { state := true, code := none, data := .dict { status := some 7 } }
    initResp2 := { state := true, code := none, data := .dict { status := some 7 } } }

/-- Environment whose first `init` reply has `status 7` with a present,
well-formed `sign_check` challenge and `sign_key`, and a readable local
file. -/
def envSignedChallenge : UploadEnv :=
  { initResp :=
      { state := true
        code := none
        data := .dict { status := some 7, sign_check := some "0-3", sign_key := some "sk1" } }
    initResp2 := { state := true, code := none, data := .dict { status := some 2 } }
    fileBytes := some [10, 20, 30, 40, 50] }

/-- C1, counterexample: on an init reply with `status = 1` (and no challenge),
`upload_file` does request the upload token and does invoke `upload_to_oss`,
contrary to the claim that status 1 is terminal success without either; it
returns `True` only because the OSS transfer succeeds. -/
theorem uploadFile_status1_counterexample :
    (uploadFile constDigest envStatus1).2.tokenRequested = true ∧
    (uploadFile constDigest envStatus1).2.ossInvoked = true ∧
    (uploadFile constDigest envStatus1).1 = .ok true := by
  refine ⟨rfl, rfl, rfl⟩

/-- C1, amended: a completed negotiation whose final init reply carries
`status = 1` is *not* terminal in `upload_file` — only `init`'s logging
counter treats it as an instant-success signal.  `upload_file` requests the
upload token, invokes the OSS client when the token call returns, and
succeeds iff the token and OSS phases succeed; this holds for every digest
function. -/
theorem uploadFile_status1_transfers (digest : List Nat → String)
    (env : UploadEnv) (r : InitResp)
    (hok : (initWithAutoSign digest env).1 = .ok r)
    (h : (extractData r).status = some 1) :
    (uploadFile digest env).2.tokenRequested = true ∧
    (uploadFile digest env).2.ossInvoked = (env.tokenError = none) ∧
    ((uploadFile digest env).1 = .ok true ↔
      env.tokenError = none ∧ env.ossError = none) ∧
    initLogsInstant r = true := by
  have hne : (extractData r).status ≠ some 2 := by
    rw [h]; decide
  simp only [uploadFile]
  rw [hok]
  dsimp only
  rw [if_neg hne]
  refine ⟨?_, ?_, ?_, ?_⟩
  · cases env.tokenError <;> cases env.ossError <;> rfl
  · cases env.tokenError <;> cases env.ossError <;> simp
  · cases env.tokenError <;> cases env.ossError <;> simp
  · simp [initLogsInstant, h]

/-- C1, witness for `uploadFile_status1_transfers` at `envStatus1`. -/
theorem uploadFile_status1_transfers_witness :
    (initWithAutoSign constDigest envStatus1).1 = .ok envStatus1.initResp ∧
    (extractData envStatus1.initResp).status = some 1 ∧
    (uploadFile constDigest envStatus1).2.tokenRequested = true := by
  refine ⟨rfl, rfl,
    (uploadFile_status1_transfers constDigest envStatus1 envStatus1.initResp rfl rfl).1⟩

/-- C4, counterexample: an init reply with `status = 7` whose `sign_check` and
`sign_key` fields are *absent* still enters the signed-resubmission branch,
because Python's `str(None)` is the truthy string `"None"`; there the
`sign_val` computation runs on the challenge string `"None"`, which specifies
no byte range, so the negotiation raises a parse error instead of returning
the original reply — refuting the claim that with absent challenge fields no
resubmission occurs and the negotiation proceeds from the first reply. -/
theorem initWithAutoSign_absent_challenge_counterexample :
    (extractData envAbsentChallenge.initResp).sign_check = none ∧
    (extractData envAbsentChallenge.initResp).sign_key = none ∧
    (initWithAutoSign constDigest envAbsentChallenge).1 =
      .error "无法解析 sign_check: None" ∧
    (initWithAutoSign constDigest envAbsentChallenge).1 ≠
      .ok envAbsentChallenge.initResp := by
  have h3 : (initWithAutoSign constDigest envAbsentChallenge).1 =
      .error "无法解析 sign_check: None" := rfl
  refine ⟨rfl, rfl, h3, ?_⟩
  rw [h3]
  intro hc
  exact Except.noConfusion hc

/-- C4, amended: `init_with_auto_sign` enters the signed-resubmission branch
exactly when the first reply's status is not 2, its status is in `{6,7,8}` or
its (item or top-level) code is in `{700,701,702}`, and the *stringified*
`sign_check` / `sign_key` are nonempty — absent fields stringify to the
truthy `"None"`, so an absent challenge still enters the branch.  Inside the
branch the `sign_val` computation (modelled from the spec: parse `sign_check`
as a byte range and read it from the local file) runs before the second
`init`: on a parse or read failure the negotiation raises that error with no
resubmission; on success exactly one resubmission occurs and the second reply
is returned as-is, with no further retry.  At most two `init` calls ever
happen. -/
theorem initWithAutoSign_resubmit_iff (digest : List Nat → String) (env : UploadEnv) :
    ((initWithAutoSign digest env).2 = 2 ↔
      (extractData env.initResp).status ≠ some 2 ∧
      (statusNeedsSign (extractData env.initResp).status
        || codeNeedsSign (pyOrInt (extractData env.initResp).code env.initResp.code)) = true ∧
      pyStr (extractData env.initResp).sign_check ≠ "" ∧
      pyStr (extractData env.initResp).sign_key ≠ "" ∧
      ∃ v, calcSignVal digest env.fileBytes
        (pyStr (extractData env.initResp).sign_check) = .ok v) ∧
    ((initWithAutoSign digest env).2 = 1 ∨ (initWithAutoSign digest env).2 = 2) ∧
    ((initWithAutoSign digest env).2 = 2 →
      (initWithAutoSign digest env).1 = .ok env.initResp2) ∧
    (∀ e, (extractData env.initResp).status ≠ some 2 →
      (statusNeedsSign (extractData env.initResp).status
        || codeNeedsSign (pyOrInt (extractData env.initResp).code env.initResp.code)) = true →
      pyStr (extractData env.initResp).sign_check ≠ "" →
      pyStr (extractData env.initResp).sign_key ≠ "" →
      calcSignVal digest env.fileBytes
        (pyStr (extractData env.initResp).sign_check) = .error e →
      (initWithAutoSign digest env).1 = .error e ∧
      (initWithAutoSign digest env).2 = 1) := by
  unfold initWithAutoSign
  by_cases h2 : (extractData env.initResp).status = some 2
  · rw [if_pos h2]
    refine ⟨by simp [h2], by simp, by simp, ?_⟩
    intro e hne
    exact absurd h2 hne
  · rw [if_neg h2]
    cases hcb : (statusNeedsSign (extractData env.initResp).status
        || codeNeedsSign (pyOrInt (extractData env.initResp).code env.initResp.code))
        && strTruthy (pyStr (extractData env.initResp).sign_check)
        && strTruthy (pyStr (extractData env.initResp).sign_key) with
    | true =>
        simp only [Bool.and_eq_true, strTruthy, bne_iff_ne, ne_eq] at hcb
        cases hcv : calcSignVal digest env.fileBytes
            (pyStr (extractData env.initResp).sign_check) with
        | ok v =>
            refine ⟨?_, by simp, fun _ => rfl, ?_⟩
            · constructor
              · intro _
                exact ⟨h2, hcb.1.1, hcb.1.2, hcb.2, ⟨v, rfl⟩⟩
              · intro _; rfl
            · intro e _ _ _ _ hce
              simp at hce
        | error e0 =>
            refine ⟨?_, by simp, ?_, ?_⟩
            · constructor
              · intro h; simp at h
              · rintro ⟨-, -, -, -, v, hv⟩
                simp at hv
            · intro h; simp at h
            · intro e _ _ _ _ hce
              simp only [Except.error.injEq] at hce
              subst hce
              exact ⟨rfl, rfl⟩
    | false =>
        refine ⟨?_, by simp, by simp, ?_⟩
        · constructor
          · intro h; simp at h
          · rintro ⟨-, hs, hck, hk, -⟩
            have ht : ((statusNeedsSign (extractData env.initResp).status
                || codeNeedsSign (pyOrInt (extractData env.initResp).code env.initResp.code))
                && strTruthy (pyStr (extractData env.initResp).sign_check)
                && strTruthy (pyStr (extractData env.initResp).sign_key)) = true := by
              simp [strTruthy, bne_iff_ne, hs, hck, hk]
            rw [hcb] at ht
            exact absurd ht Bool.false_ne_true
        · intro e hne hs hck hk hce
          have ht : ((statusNeedsSign (extractData env.initResp).status
              || codeNeedsSign (pyOrInt (extractData env.initResp).code env.initResp.code))
              && strTruthy (pyStr (extractData env.initResp).sign_check)
              && strTruthy (pyStr (extractData env.initResp).sign_key)) = true := by
            simp [strTruthy, bne_iff_ne, hs, hck, hk]
          rw [hcb] at ht
          exact absurd ht Bool.false_ne_true

/-- C4, witness for `initWithAutoSign_resubmit_iff` at `envSignedChallenge`:
with a present well-formed challenge, a readable file and status 7, the
`sign_val` computation succeeds, exactly two init calls occur, and the second
reply is returned as-is; and the error conjunct fires at `envAbsentChallenge`
where the `"None"` challenge fails to parse. -/
theorem initWithAutoSign_resubmit_iff_witness :
    (initWithAutoSign constDigest envSignedChallenge).2 = 2 ∧
    (initWithAutoSign constDigest envSignedChallenge).1 =
      .ok envSignedChallenge.initResp2 ∧
    (initWithAutoSign constDigest envAbsentChallenge).1 =
      .error "无法解析 sign_check: None" := by
  have h := initWithAutoSign_resubmit_iff constDigest envSignedChallenge
  have h2 : (initWithAutoSign constDigest envSignedChallenge).2 = 2 :=
    h.1.mpr ⟨by decide, by decide, by decide, by decide, ⟨"d0", rfl⟩⟩
  have ha := initWithAutoSign_resubmit_iff constDigest envAbsentChallenge
  exact ⟨h2, h.2.2.1 h2,
    (ha.2.2.2 "无法解析 sign_check: None" (by decide) (by decide) (by decide)
      (by decide) rfl).1⟩

/-! ## Folder upload fan-out (`upload_folder`) -/

/-- One element of `upload_folder`'s `results` list: the dict built by the
`upload_single_file` worker (Uploader.py lines 424-438) or the fallback dict
built when collecting a future raises (lines 468-476).  `result` holds the
boolean `upload_file` returned when the worker body did not raise. -/
structure FileRecord where
  localPath : String
  result : Option Bool
  success : Bool
  errorMsg : Option String
  deriving Repr, DecidableEq

/-- `upload_single_file` (Uploader.py lines 408-438): one `upload_file` call
wrapped in try/except.  A normal return — whatever boolean `upload_file`
produced — yields `success := True`; any exception yields `success := False`
with the error text. -/
def uploadSingleFile (localPath : String) (outcome : Except String Bool) : FileRecord :=
  match outcome with
  | .ok res => ⟨localPath, some res, true, none⟩
  | .error e => ⟨localPath, none, false, some e⟩

/-- The dict `upload_folder` returns (Uploader.py lines 487-495), plus the
number of overall-progress-bar updates performed (one per completed future,
lines 455-479, modelling the `show_progress = True` case). -/
structure BatchResult where
  state : Bool
  total : Nat
  success : Nat
  failed : Nat
  data : List FileRecord
  counter : Nat
  deriving Repr, DecidableEq

/-- One step of `upload_folder`'s `as_completed` loop (Uploader.py lines
455-479): append exactly one record for the completed future — the worker's
own record, since the worker catches its own exceptions — and update the
progress counter once. -/
def uploadFolderStep (acc : List FileRecord × Nat) (p : String × Except String Bool) :
    List FileRecord × Nat :=
  (acc.1 ++ [uploadSingleFile p.1 p.2], acc.2 + 1)

/-- The `as_completed` collection loop of `upload_folder`, over the completed
futures in completion order; each pair is a file path with its worker's
outcome (`upload_file`'s boolean, or the exception the worker raised). -/
def uploadFolderRun (completed : List (String × Except String Bool)) :
    List FileRecord × Nat :=
  completed.foldl uploadFolderStep ([], 0)

/-- `upload_folder`'s aggregation (Uploader.py lines 481-495): `state` is the
literal `True`, `success` counts records with `success` true, `failed` is the
rest, `total` the length of `results`. -/
def uploadFolderAgg (completed : List (String × Except String Bool)) : BatchResult :=
  let run := uploadFolderRun completed
  let succ := (run.1.filter (fun r => r.success)).length
  { state := true
    total := run.1.length
    success := succ
    failed := run.1.length - succ
    data := run.1
    counter := run.2 }

/-- A two-file completion list whose second worker raised. -/
def completedOneFailure : List (String × Except String Bool) :=
  [("a.txt", .ok true), ("b.txt", .error "ValueError: file_size")]

/-- C2, counterexample: with one worker failure, the batch record still
carries the unconditional `state = True` — there is no batch-level flag that
is true iff every per-file `success` is true — so the batch is "declared
successful" while a per-file record has `success = false`, refuting the
claimed equivalence. -/
theorem uploadFolder_state_counterexample :
    (uploadFolderAgg completedOneFailure).state = true ∧
    (uploadFolderAgg completedOneFailure).failed = 1 ∧
    ((uploadFolderAgg completedOneFailure).data.filter (fun r => !r.success)).length = 1 := by
  refine ⟨rfl, rfl, rfl⟩

/-- Helper: the fold of `upload_folder`'s collection loop, with a general
accumulator: the records are the accumulator's followed by one worker record
per completed future, and the counter advances once per future. -/
theorem uploadFolderRun_foldl (completed : List (String × Except String Bool)) :
    ∀ acc : List FileRecord × Nat,
      completed.foldl uploadFolderStep acc =
        (acc.1 ++ completed.map (fun p => uploadSingleFile p.1 p.2),
         acc.2 + completed.length) := by
  induction completed with
  | nil => intro acc; simp
  | cons p rest ih =>
      intro acc
      simp only [List.foldl_cons, ih, uploadFolderStep, List.map_cons, List.length_cons]
      refine Prod.ext ?_ ?_
      · simp
      · simp; omega

/-- C2, amended: `upload_folder` attempts every submitted file (one record per
completed future, in completion order — no fail-fast), its per-file `success`
is true exactly when the worker did not raise (regardless of the boolean
`upload_file` returned), its counts satisfy `success + failed = total`, but
its batch record carries the unconditional `state = True` rather than a
conjunction of the per-file outcomes. -/
theorem uploadFolderAgg_spec (completed : List (String × Except String Bool)) :
    (uploadFolderAgg completed).state = true ∧
    (uploadFolderAgg completed).data =
      completed.map (fun p => uploadSingleFile p.1 p.2) ∧
    (uploadFolderAgg completed).total = completed.length ∧
    (uploadFolderAgg completed).success + (uploadFolderAgg completed).failed =
      (uploadFolderAgg completed).total ∧
    (∀ p ∈ completed,
      (uploadSingleFile p.1 p.2).success = true ↔ ∃ b, p.2 = .ok b) := by
  have hrun : uploadFolderRun completed =
      (completed.map (fun p => uploadSingleFile p.1 p.2), completed.length) := by
    have := uploadFolderRun_foldl completed ([], 0)
    simpa [uploadFolderRun] using this
  refine ⟨rfl, ?_, ?_, ?_, ?_⟩
  · simp [uploadFolderAgg, hrun]
  · simp [uploadFolderAgg, hrun]
  · simp only [uploadFolderAgg, hrun]
    have hle : ((completed.map (fun p => uploadSingleFile p.1 p.2)).filter
        (fun r => r.success)).length ≤ (completed.map (fun p => uploadSingleFile p.1 p.2)).length :=
      List.length_filter_le _ _
    omega
  · intro p _
    cases hp : p.2 with
    | ok b => simp [uploadSingleFile, hp]
    | error e => simp [uploadSingleFile, hp]

/-! ## Destination-folder resolution in the upload fan-out -/

/-- A Python-dict association lookup (`dict.get` without default). -/
def cacheGet (cache : List (String × Nat)) (k : String) : Option Nat :=
  match cache with
  | [] => none
  | (k2, v) :: rest => if k2 = k then some v else cacheGet rest k

/-- The destination lookup of `upload_single_file` (Uploader.py lines
414-415): `cloud_folder_cache.get(parent_rel_path, target_id)` — a plain
lookup with the *target root* as the default. -/
def resolveTargetFolder (cache : List (String × Nat)) (targetId : Nat)
    (parentRel : String) : Nat :=
  match cacheGet cache parentRel with
  | some v => v
  | none => targetId

/-- Split a character list at `'/'` occurrences (the semantics of both
Python's `str.split("/")` and of `pathlib`'s component parsing). -/
def splitSlashAux (acc : List Char) : List Char → List (List Char)
  | [] => [acc.reverse]
  | c :: rest =>
      if c = '/' then acc.reverse :: splitSlashAux [] rest
      else splitSlashAux (c :: acc) rest

/-- Split a string at `'/'` occurrences. -/
def splitSlash (s : String) : List String :=
  (splitSlashAux [] s.data).map (fun l => String.mk l)

/-- Join strings with `'/'` separators (Python `"/".join`). -/
def joinSlash : List String → String
  | [] => ""
  | [x] => x
  | x :: y :: rest => x ++ "/" ++ joinSlash (y :: rest)

/-- Modelled from the spec: resolution to "the nearest resolvable ancestor"
(spec §5) — walk the parent chain of the relative path upward until a cached
entry is found, ending at the target root.  This definition follows the
spec's words; the source's actual lookup is `resolveTargetFolder`.  The fuel
argument bounds the walk (one step per path component suffices). -/
def specNearestAncestorAux (cache : List (String × Nat)) (targetId : Nat) :
    Nat → List String → Nat
  | 0, _ => targetId
  | _ + 1, [] => (cacheGet cache "").getD targetId
  | fuel + 1, comps =>
      match cacheGet cache (joinSlash comps) with
      | some v => v
      | none => specNearestAncestorAux cache targetId fuel comps.dropLast

/-- Modelled from the spec: nearest-resolvable-ancestor lookup on a
slash-separated relative path. -/
def specNearestAncestor (cache : List (String × Nat)) (targetId : Nat)
    (parentRel : String) : Nat :=
  let comps := splitSlash parentRel
  specNearestAncestorAux cache targetId (comps.length + 1) comps

/-- The directory-id cache of a run whose pre-pass resolved `""` and `"a"`
but (violating the pre-pass design) not `"a/b"`. -/
def cacheMissingParent : List (String × Nat) := [("", 10), ("a", 20)]

/-- C8, counterexample: for a file whose parent relative path `"a/b"` is
absent from the cache, the worker resolves the destination to the *target
root* (id 10), not to the nearest resolvable ancestor `"a"` (id 20) as the
claim states. -/
theorem resolveTargetFolder_counterexample :
    resolveTargetFolder cacheMissingParent 10 "a/b" = 10 ∧
    specNearestAncestor cacheMissingParent 10 "a/b" = 20 ∧
    (10 : Nat) ≠ 20 := by
  refine ⟨rfl, rfl, by decide⟩

/-- C8, amended: the worker's destination lookup is total (it neither blocks
nor crashes) and falls back to the *target root* exactly when the parent
relative path is absent from the cache, as §4.4 states; a cached path
resolves to its cached id. -/
theorem resolveTargetFolder_spec (cache : List (String × Nat)) (targetId : Nat)
    (parentRel : String) :
    (cacheGet cache parentRel = none → resolveTargetFolder cache targetId parentRel = targetId) ∧
    (∀ v, cacheGet cache parentRel = some v →
      resolveTargetFolder cache targetId parentRel = v) := by
  constructor
  · intro h; simp [resolveTargetFolder, h]
  · intro v h; simp [resolveTargetFolder, h]

/-- C8, witness for `resolveTargetFolder_spec`: the root fallback fires on the
concrete cache missing `"a/b"`, and the cached path `"a"` resolves to 20. -/
theorem resolveTargetFolder_spec_witness :
    resolveTargetFolder cacheMissingParent 7 "a/b" = 7 ∧
    resolveTargetFolder cacheMissingParent 7 "a" = 20 :=
  ⟨(resolveTargetFolder_spec cacheMissingParent 7 "a/b").1 rfl,
   (resolveTargetFolder_spec cacheMissingParent 7 "a").2 20 rfl⟩

/-! ## Local file system and streaming download (`Downloader._download_file`) -/

/-- The local file system: an association of path strings to byte contents. -/
abbrev FS := List (String × List Nat)

/-- Content of a file, if it exists. -/
def fsGet (fs : FS) (p : String) : Option (List Nat) :=
  match fs with
  | [] => none
  | (q, c) :: rest => if q = p then some c else fsGet rest p

/-- Python `path.exists()`. -/
def fsExists (fs : FS) (p : String) : Bool :=
  (fsGet fs p).isSome

/-- Create/overwrite a file with the given content. -/
def fsSet (fs : FS) (p : String) (content : List Nat) : FS :=
  (p, content) :: fs.filter (fun e => e.1 ≠ p)

/-- Python `path.unlink()`. -/
def fsDelete (fs : FS) (p : String) : FS :=
  fs.filter (fun e => e.1 ≠ p)

/-- One event produced while iterating the HTTP response body
(`response.iter_bytes` in `Downloader._download_file`): a chunk of bytes, or
an exception raised mid-stream. -/
inductive StreamEvent where
  | chunk (bytes : List Nat)
  | ioError (msg : String)
  deriving Repr, DecidableEq

/-- Outcome of `_download_file`: the file system afterwards, the normal return
or the raised exception, and whether every opened progress bar was closed. -/
structure DlFileOut where
  fs : FS
  result : Except String Unit
  progressClosed : Bool
  deriving Repr

/-- The chunk-write loop of `Downloader._download_file` with its except
handler (Downloader.py lines 240-255): each nonempty chunk is appended to the
open file (`if chunk: f.write(chunk)`); on an exception the progress bar is
closed, the partial file is deleted if it exists (`save_path.unlink()`), and
a `RuntimeError` wrapping the original error is raised; the `finally` block
closes the progress bar on the success path too. -/
def dlWriteLoop (savePath : String) (fs : FS) (written : List Nat) :
    List StreamEvent → DlFileOut
  | [] => ⟨fs, .ok (), true⟩
  | .chunk b :: rest =>
      if b = [] then dlWriteLoop savePath fs written rest
      else
        let w := written ++ b
        dlWriteLoop savePath (fsSet fs savePath w) w rest
  | .ioError e :: _ =>
      ⟨if fsExists fs savePath then fsDelete fs savePath else fs,
       .error ("下载过程中发生错误: " ++ e), true⟩

/-- `Downloader._download_file` (Downloader.py lines 203-255): `open(save_path,
"wb")` creates/truncates the file, then the write loop consumes the response
events. -/
def downloadFileStream (savePath : String) (events : List StreamEvent) (fs : FS) :
    DlFileOut :=
  dlWriteLoop savePath (fsSet fs savePath []) [] events

/-- A deleted path has no content. -/
theorem fsGet_fsDelete (fs : FS) (p : String) :
    fsGet (fsDelete fs p) p = none := by
  induction fs with
  | nil => rfl
  | cons e rest ih =>
      obtain ⟨q, c⟩ := e
      by_cases h : q = p
      · simpa [fsDelete, List.filter_cons, h] using ih
      · simpa [fsDelete, List.filter_cons, h, fsGet] using ih

/-- Deleting a path makes it not exist. -/
theorem fsExists_fsDelete (fs : FS) (p : String) :
    fsExists (fsDelete fs p) p = false := by
  simp [fsExists, fsGet_fsDelete]

/-- Helper for C3: whatever was already written, an error exit of the write
loop leaves no file at the destination and the progress bar closed. -/
theorem dlWriteLoop_error_clean (savePath : String) :
    ∀ (events : List StreamEvent) (fs : FS) (written : List Nat) (e : String),
      (dlWriteLoop savePath fs written events).result = .error e →
      fsExists (dlWriteLoop savePath fs written events).fs savePath = false ∧
      (dlWriteLoop savePath fs written events).progressClosed = true := by
  intro events
  induction events with
  | nil => intro fs written e h; exact absurd h (by simp [dlWriteLoop])
  | cons ev rest ih =>
      intro fs written e h
      cases ev with
      | chunk b =>
          by_cases hb : b = []
          · rw [dlWriteLoop, if_pos hb] at h ⊢
            exact ih fs written e h
          · rw [dlWriteLoop, if_neg hb] at h ⊢
            exact ih _ _ e h
      | ioError msg =>
          rw [dlWriteLoop]
          refine ⟨?_, rfl⟩
          by_cases hex : fsExists fs savePath = true
          · simp only [hex, if_pos]
            exact fsExists_fsDelete fs savePath
          · simp only [Bool.not_eq_true] at hex
            simp [hex]

/-- C3: if `_download_file` raises while streaming the response body, then
afterwards no file exists at the destination path — the partially written
file has been deleted — and the progress indicator is closed. -/
theorem downloadFileStream_no_partial_file (savePath : String)
    (events : List StreamEvent) (fs : FS) (e : String)
    (h : (downloadFileStream savePath events fs).result = .error e) :
    fsExists (downloadFileStream savePath events fs).fs savePath = false ∧
    (downloadFileStream savePath events fs).progressClosed = true :=
  dlWriteLoop_error_clean savePath events (fsSet fs savePath []) [] e h

/-- C3, witness: a concrete interrupted stream (two chunks, then a network
error) leaves no file at `"/save/f.bin"`. -/
theorem downloadFileStream_no_partial_file_witness :
    (downloadFileStream "/save/f.bin"
        [.chunk [1, 2], .chunk [3], .ioError "connection reset"] []).result =
      .error "下载过程中发生错误: connection reset" ∧
    fsExists (downloadFileStream "/save/f.bin"
        [.chunk [1, 2], .chunk [3], .ioError "connection reset"] []).fs "/save/f.bin" = false :=
  ⟨rfl,
   (downloadFileStream_no_partial_file "/save/f.bin"
      [.chunk [1, 2], .chunk [3], .ioError "connection reset"] []
      "下载过程中发生错误: connection reset" rfl).1⟩

/-! ## Single-file download (`Downloader.download`) -/

/-- The file-info value inside a `downurl` reply's `data` dict, with the
fields `download` reads: `url.url`, `file_name`, `file_size`. -/
structure FileEntry where
  url : Option String := none
  file_name : String := "unknown"
  file_size : Int := 0
  deriving Repr, DecidableEq

/-- A `downurl` reply: `state` and the `data` dict's values in order (the code
takes the first with `next(iter(data_dict.values()), None)`). -/
structure DownurlResp where
  state : Bool := true
  data : List FileEntry := []
  deriving Repr, DecidableEq

/-- The environment one `Downloader.download` call interacts with: the
`downurl` reply, the local file system, and the events the HTTP response body
will produce if the streaming download is started. -/
structure DlEnv where
  downurlResp : DownurlResp := {}
  fs : FS := []
  streamEvents : List StreamEvent := []
  deriving Repr, DecidableEq

/-- The result dict of `Downloader.download` (lines 102-139): always exactly
the keys `success`, `pick_code`, `file_name`, `file_size`, `save_path`,
`message`. -/
structure DownloadResult where
  success : Bool
  pick_code : String
  file_name : String
  file_size : Int
  save_path : String
  message : String
  deriving Repr, DecidableEq

/-- The skip message of `Downloader.download` (line 108). -/
def msgSkipped : String := "文件已存在，跳过下载（设置 overwrite=True 可覆盖）"

/-- The success message of `Downloader.download` (line 128). -/
def msgOk : String := "下载成功"

/-- The catch-all failure record of `Downloader.download`'s `except` clause
(lines 131-139); the message prefixes the exception text with "下载失败: ". -/
def dlFailure (pickCode : String) (filename : Option String) (fs : FS)
    (transferAttempted : Bool) (e : String) : DownloadResult × FS × Bool :=
  ({ success := false, pick_code := pickCode, file_name := filename.getD "unknown",
     file_size := 0, save_path := "", message := "下载失败: " ++ e },
   fs, transferAttempted)

/-- `Downloader.download` (Downloader.py lines 29-139): resolve the download
URL from the pick code, parse the first file-info entry, short-circuit to a
skip record when the destination exists and `overwrite` is false, otherwise
stream to disk; every exception of the body is caught and converted to a
failure record.  Dynamic messages embedding Python reprs are modelled by
their fixed prefix text.  Returns the result record, the file system
afterwards, and whether `_download_file` was invoked (bytes transferred). -/
def download (pickCode : String) (saveDir : String) (filename : Option String)
    (overwrite : Bool) (env : DlEnv) : DownloadResult × FS × Bool :=
  if env.downurlResp.state = false then
    dlFailure pickCode filename env.fs false "获取下载地址失败"
  else
    match env.downurlResp.data with
    | [] => dlFailure pickCode filename env.fs false
        "下载地址为空，请检查提取码是否正确, 不能传入文件夹"
    | info :: _ =>
      match info.url with
      | none => dlFailure pickCode filename env.fs false "未能获取有效的下载URL"
      | some _ =>
        let finalName := filename.getD info.file_name
        let fullPath := saveDir ++ "/" ++ finalName
        if fsExists env.fs fullPath && !overwrite then
          ({ success := false, pick_code := pickCode, file_name := finalName,
             file_size := info.file_size, save_path := fullPath, message := msgSkipped },
           env.fs, false)
        else
          let out := downloadFileStream fullPath env.streamEvents env.fs
          match out.result with
          | .ok _ =>
            ({ success := true, pick_code := pickCode, file_name := finalName,
               file_size := info.file_size, save_path := fullPath, message := msgOk },
             out.fs, true)
          | .error e => dlFailure pickCode filename out.fs true e

/-! ## Folder download fan-out (`Downloader._download_folder_concurrent`) -/

/-- One entry of the flattened file list handed to a download worker, together
with the per-file environment its `download` call will see.  `saveDirPath`
is `item["target_path"].parent`. -/
structure DlItem where
  pickCode : String
  fileName : String
  saveDirPath : String
  env : DlEnv
  deriving Repr, DecidableEq

/-- The `_worker` function of `_download_folder_concurrent` (Downloader.py
lines 440-452): one `download` call with `filename = item["file_name"]` and
the item's parent directory as save path. -/
def dlWorker (overwrite : Bool) (it : DlItem) : DownloadResult :=
  (download it.pickCode it.saveDirPath (some it.fileName) overwrite it.env).1

/-- The dict `_download_folder_concurrent` returns (lines 490-499), plus the
number of overall-progress updates (one per completed future, lines
459-483). -/
structure DlBatch where
  success : Bool
  total_files : Nat
  downloaded : Nat
  failed : Nat
  results : List DownloadResult
  counter : Nat
  deriving Repr, DecidableEq

/-- One step of `_download_folder_concurrent`'s `as_completed` loop (lines
459-483): on a normal future append the worker's record and count it when
successful; on a raising future append the fallback record (whose dict in the
code carries no `file_size`/`save_path` keys, modelled as `0`/`""`); the
progress bar is updated once either way. -/
def dlFolderStep (overwrite : Bool) (acc : List DownloadResult × Nat × Nat)
    (c : DlItem × Option String) : List DownloadResult × Nat × Nat :=
  match c.2 with
  | none =>
      let r := dlWorker overwrite c.1
      (acc.1 ++ [r], acc.2.1 + (if r.success then 1 else 0), acc.2.2 + 1)
  | some e =>
      (acc.1 ++ [{ success := false, pick_code := c.1.pickCode,
                   file_name := c.1.fileName, file_size := 0, save_path := "",
                   message := e }], acc.2.1, acc.2.2 + 1)

/-- The `as_completed` collection loop of `_download_folder_concurrent`, over
the completed futures in completion order; `some e` marks a future whose
worker raised `e` (e.g. from `mkdir`). -/
def dlFolderRun (overwrite : Bool) (completed : List (DlItem × Option String)) :
    List DownloadResult × Nat × Nat :=
  completed.foldl (dlFolderStep overwrite) ([], 0, 0)

/-- `_download_folder_concurrent`'s aggregation (Downloader.py lines 485-499):
`failed = len(all_files) - downloaded_count` and the batch `success` is
`failed == 0`. -/
def dlFolderAgg (overwrite : Bool) (completed : List (DlItem × Option String)) :
    DlBatch :=
  let run := dlFolderRun overwrite completed
  { success := (completed.length - run.2.1) == 0
    total_files := completed.length
    downloaded := run.2.1
    failed := completed.length - run.2.1
    results := run.1
    counter := run.2.2 }

/-- The record appended for one completed future of
`_download_folder_concurrent`: the worker's result, or the fallback record
for a raised exception. -/
def dlRecordOf (overwrite : Bool) (c : DlItem × Option String) : DownloadResult :=
  match c.2 with
  | none => dlWorker overwrite c.1
  | some e =>
      { success := false, pick_code := c.1.pickCode, file_name := c.1.fileName,
        file_size := 0, save_path := "", message := e }

/-- Each loop step appends exactly the record of its future, counts it when
successful, and bumps the progress counter once. -/
theorem dlFolderStep_eq (overwrite : Bool) (acc : List DownloadResult × Nat × Nat)
    (c : DlItem × Option String) :
    dlFolderStep overwrite acc c =
      (acc.1 ++ [dlRecordOf overwrite c],
       acc.2.1 + (if (dlRecordOf overwrite c).success then 1 else 0),
       acc.2.2 + 1) := by
  cases hc : c.2 with
  | none => simp [dlFolderStep, dlRecordOf, hc]
  | some e => simp [dlFolderStep, dlRecordOf, hc]

/-- Helper: the download collection loop with a general accumulator. -/
theorem dlFolderRun_foldl (overwrite : Bool)
    (completed : List (DlItem × Option String)) :
    ∀ acc : List DownloadResult × Nat × Nat,
      completed.foldl (dlFolderStep overwrite) acc =
        (acc.1 ++ completed.map (dlRecordOf overwrite),
         acc.2.1 + ((completed.map (dlRecordOf overwrite)).filter
            (fun r => r.success)).length,
         acc.2.2 + completed.length) := by
  induction completed with
  | nil => intro acc; simp
  | cons c rest ih =>
      intro acc
      rw [List.foldl_cons, dlFolderStep_eq, ih]
      refine Prod.ext ?_ (Prod.ext ?_ ?_)
      · simp
      · simp only [List.map_cons, List.filter_cons]
        cases hsc : (dlRecordOf overwrite c).success
        · simp [hsc]
        · simp [hsc]
          try omega
      · simp; omega

/-- C9: over any batch fan-out — `upload_folder` over the completed upload
futures and `_download_folder_concurrent` over the completed download
futures — exactly one result record is appended per submitted file even when
a worker raises, so the results list has length `n`, the completion counter
reaches `n`, and the reported totals satisfy `total = succeeded + failed`. -/
theorem batch_one_record_per_file (ups : List (String × Except String Bool))
    (overwrite : Bool) (dls : List (DlItem × Option String)) :
    (uploadFolderAgg ups).data.length = ups.length ∧
    (uploadFolderAgg ups).counter = ups.length ∧
    (uploadFolderAgg ups).total = ups.length ∧
    (uploadFolderAgg ups).success + (uploadFolderAgg ups).failed =
      (uploadFolderAgg ups).total ∧
    (dlFolderAgg overwrite dls).results.length = dls.length ∧
    (dlFolderAgg overwrite dls).counter = dls.length ∧
    (dlFolderAgg overwrite dls).total_files = dls.length ∧
    (dlFolderAgg overwrite dls).downloaded + (dlFolderAgg overwrite dls).failed =
      (dlFolderAgg overwrite dls).total_files := by
  have hup : uploadFolderRun ups =
      (ups.map (fun p => uploadSingleFile p.1 p.2), ups.length) := by
    simpa [uploadFolderRun] using uploadFolderRun_foldl ups ([], 0)
  have hdl : dlFolderRun overwrite dls =
      (dls.map (dlRecordOf overwrite),
       ((dls.map (dlRecordOf overwrite)).filter (fun r => r.success)).length,
       dls.length) := by
    simpa [dlFolderRun] using dlFolderRun_foldl overwrite dls ([], 0, 0)
  have hle1 : ((ups.map (fun p => uploadSingleFile p.1 p.2)).filter
      (fun r => r.success)).length ≤ ups.length := by
    calc ((ups.map (fun p => uploadSingleFile p.1 p.2)).filter
        (fun r => r.success)).length
        ≤ (ups.map (fun p => uploadSingleFile p.1 p.2)).length :=
          List.length_filter_le _ _
      _ = ups.length := by simp
  have hle2 : ((dls.map (dlRecordOf overwrite)).filter
      (fun r => r.success)).length ≤ dls.length := by
    calc ((dls.map (dlRecordOf overwrite)).filter (fun r => r.success)).length
        ≤ (dls.map (dlRecordOf overwrite)).length := List.length_filter_le _ _
      _ = dls.length := by simp
  refine ⟨?_, ?_, ?_, ?_, ?_, ?_, ?_, ?_⟩
  · simp [uploadFolderAgg, hup]
  · simp [uploadFolderAgg, hup]
  · simp [uploadFolderAgg, hup]
  · simp only [uploadFolderAgg, hup]
    simp only [List.length_map]
    omega
  · simp [dlFolderAgg, hdl]
  · simp [dlFolderAgg, hdl]
  · simp [dlFolderAgg, hdl]
  · simp only [dlFolderAgg, hdl]
    omega

/-- Helper for C6: the skip short-circuit of `Downloader.download`: with a
successful URL resolution, an existing destination and `overwrite = False`,
the call returns the skip record, leaves the file system untouched and never
invokes `_download_file`. -/
theorem download_skip_aux (pc sd : String) (fn : Option String) (env : DlEnv)
    (info : FileEntry) (rest : List FileEntry)
    (hstate : env.downurlResp.state = true)
    (hdata : env.downurlResp.data = info :: rest)
    (hurl : info.url.isSome = true)
    (hex : fsExists env.fs (sd ++ "/" ++ fn.getD info.file_name) = true) :
    download pc sd fn false env =
      ({ success := false, pick_code := pc, file_name := fn.getD info.file_name,
         file_size := info.file_size, save_path := sd ++ "/" ++ fn.getD info.file_name,
         message := msgSkipped }, env.fs, false) := by
  obtain ⟨u, hu⟩ := Option.isSome_iff_exists.mp hurl
  simp [download, hstate, hdata, hu, hex]

/-- Whether a download item's URL resolution will succeed and its destination
file already exists. -/
def dlItemSkipReady (it : DlItem) : Bool :=
  it.env.downurlResp.state &&
  (match it.env.downurlResp.data with
   | [] => false
   | info :: _ =>
      info.url.isSome && fsExists it.env.fs (it.saveDirPath ++ "/" ++ it.fileName))

/-- Helper for C6: a ready item with an existing destination is reported as
skipped by the folder worker. -/
theorem dlWorker_skip (it : DlItem) (h : dlItemSkipReady it = true) :
    (dlWorker false it).success = false ∧ (dlWorker false it).message = msgSkipped := by
  simp only [dlItemSkipReady, Bool.and_eq_true] at h
  obtain ⟨hstate, hrest⟩ := h
  cases hdata : it.env.downurlResp.data with
  | nil => rw [hdata] at hrest; exact absurd hrest (by simp)
  | cons info rest =>
      rw [hdata] at hrest
      simp only [Bool.and_eq_true] at hrest
      have := download_skip_aux it.pickCode it.saveDirPath (some it.fileName) it.env
        info rest hstate hdata hrest.1 hrest.2
      simp [dlWorker, this]

/-- C6: when the destination file exists and `overwrite` is false, a
single-file download with a successful URL resolution returns the skip record
(`success = False`, the distinguished message), transfers no bytes and leaves
the file system unchanged; consequently a second folder download over items
whose destinations all exist (because the first run succeeded) reports every
file as skipped. -/
theorem download_skip_existing (pc sd : String) (fn : Option String) (env : DlEnv)
    (info : FileEntry) (rest : List FileEntry)
    (hstate : env.downurlResp.state = true)
    (hdata : env.downurlResp.data = info :: rest)
    (hurl : info.url.isSome = true)
    (hex : fsExists env.fs (sd ++ "/" ++ fn.getD info.file_name) = true) :
    download pc sd fn false env =
      ({ success := false, pick_code := pc, file_name := fn.getD info.file_name,
         file_size := info.file_size, save_path := sd ++ "/" ++ fn.getD info.file_name,
         message := msgSkipped }, env.fs, false) ∧
    (∀ dls : List DlItem, (∀ it ∈ dls, dlItemSkipReady it = true) →
      ∀ r ∈ (dlFolderAgg false (dls.map (fun it => (it, none)))).results,
        r.success = false ∧ r.message = msgSkipped) := by
  refine ⟨download_skip_aux pc sd fn env info rest hstate hdata hurl hex, ?_⟩
  intro dls hready r hr
  have hrun := dlFolderRun_foldl false (dls.map (fun it => (it, none))) ([], 0, 0)
  simp only [dlFolderAgg, dlFolderRun, hrun, List.nil_append] at hr
  simp only [List.map_map, List.mem_map, Function.comp] at hr
  obtain ⟨it, hit, hreq⟩ := hr
  have := dlWorker_skip it (hready it hit)
  rw [← hreq]
  simpa [dlRecordOf] using this

/-- A concrete environment for the skip witness: the destination file is
already on disk. -/
def envExisting : DlEnv :=
  { downurlResp := { state := true, data := [{ url := some "http:u", file_name := "f.txt" }] }
    fs := [("/dl/f.txt", [7, 7])]
    streamEvents := [] }

/-- C6, witness for `download_skip_existing`: the concrete existing-file
download is skipped with the distinguished message and an unchanged file
system. -/
theorem download_skip_existing_witness :
    (download "pc1" "/dl" none false envExisting).1.message = msgSkipped ∧
    (download "pc1" "/dl" none false envExisting).2.1 = envExisting.fs := by
  have h := (download_skip_existing "pc1" "/dl" none envExisting
    { url := some "http:u", file_name := "f.txt" } [] rfl rfl rfl rfl).1
  rw [h]
  exact ⟨rfl, rfl⟩

/-- C10: `Downloader.download` is total over its environment — every internal
failure (failed URL resolution, empty or malformed response data, streaming
error) is caught and converted into a result record that carries all six
keys; a `success = False` record's message is either the distinguished skip
message or the caught error text prefixed with "下载失败: ", a `success = True`
record's message is the success message, and a failed `downurl` resolution
yields exactly the catch-all failure record. -/
theorem download_total_shape (pc sd : String) (fn : Option String) (ow : Bool)
    (env : DlEnv) :
    ((download pc sd fn ow env).1.success = true →
      (download pc sd fn ow env).1.message = msgOk) ∧
    ((download pc sd fn ow env).1.success = false →
      (download pc sd fn ow env).1.message = msgSkipped ∨
      ∃ e, (download pc sd fn ow env).1.message = "下载失败: " ++ e) ∧
    (env.downurlResp.state = false →
      download pc sd fn ow env = dlFailure pc fn env.fs false "获取下载地址失败") := by
  unfold download
  by_cases hs : env.downurlResp.state = false
  · rw [if_pos hs]
    refine ⟨?_, ?_, fun _ => rfl⟩
    · intro h; simp [dlFailure] at h
    · intro _; exact .inr ⟨_, rfl⟩
  · rw [if_neg hs]
    cases hd : env.downurlResp.data with
    | nil =>
        refine ⟨?_, ?_, fun h => absurd h hs⟩
        · intro h; simp [dlFailure] at h
        · intro _; exact .inr ⟨_, rfl⟩
    | cons info rest =>
        dsimp only
        cases hu : info.url with
        | none =>
            refine ⟨?_, ?_, fun h => absurd h hs⟩
            · intro h; simp [dlFailure] at h
            · intro _; exact .inr ⟨_, rfl⟩
        | some u =>
            dsimp only
            by_cases hex :
                (fsExists env.fs (sd ++ "/" ++ fn.getD info.file_name) && !ow) = true
            · rw [if_pos hex]
              refine ⟨?_, ?_, fun h => absurd h hs⟩
              · intro h; simp at h
              · intro _; exact .inl rfl
            · rw [if_neg hex]
              cases hres : (downloadFileStream (sd ++ "/" ++ fn.getD info.file_name)
                  env.streamEvents env.fs).result with
              | ok v =>
                  refine ⟨fun _ => rfl, ?_, fun h => absurd h hs⟩
                  intro h; simp at h
              | error e =>
                  refine ⟨?_, ?_, fun h => absurd h hs⟩
                  · intro h; simp [dlFailure] at h
                  · intro _; exact .inr ⟨e, rfl⟩

/-! ## Remote listing pagination (`_get_all_items`, `_get_all_files`) -/

/-- One reply of the paged `files(cid, limit, offset)` listing call: `state`,
the `data` page (items abstracted to opaque ids) and the server-reported
total `count`. -/
structure PageResp where
  state : Bool := true
  data : List Nat := []
  count : Nat := 0
  deriving Repr, DecidableEq

/-- `Downloader._get_all_items` (Downloader.py lines 258-274): accumulate
pages from offset 0; raise on a non-true `state`; stop on an empty page, when
the accumulated count reaches the reported total, or when a page is short;
advance the offset by `len(page)`.  `fetch off` is the server's reply at
offset `off`; the fuel bounds the number of page fetches the model performs
and its exhaustion is reported as a distinguished error, so no theorem can
mistake a truncated run for a completed one.  Returns the accumulated items
(or the raised error) and the number of fetches. -/
def getAllItemsAux (fetch : Nat → PageResp) (limit : Nat) :
    Nat → Nat → List Nat → Nat → Except String (List Nat) × Nat
  | 0, _, _, n => (.error "fuel exhausted", n)
  | fuel + 1, off, acc, n =>
      let resp := fetch off
      if resp.state = false then (.error "获取文件列表失败", n + 1)
      else if resp.data = [] then (.ok acc, n + 1)
      else
        if resp.count ≤ (acc ++ resp.data).length ∨ resp.data.length < limit then
          (.ok (acc ++ resp.data), n + 1)
        else getAllItemsAux fetch limit fuel (off + resp.data.length) (acc ++ resp.data) (n + 1)

/-- `Downloader._get_all_items` at its fixed page-size ceiling 1150. -/
def getAllItems (fetch : Nat → PageResp) (fuel : Nat) : Except String (List Nat) × Nat :=
  getAllItemsAux fetch 1150 fuel 0 [] 0

/-- `Uploader._get_all_files` (Uploader.py lines 526-551): identical loop
except that the offset advances by `limit` instead of `len(page)` (the code
then returns the last reply with `data` replaced by the accumulated items;
the model returns the items). -/
def getAllFilesAux (fetch : Nat → PageResp) (limit : Nat) :
    Nat → Nat → List Nat → Nat → Except String (List Nat) × Nat
  | 0, _, _, n => (.error "fuel exhausted", n)
  | fuel + 1, off, acc, n =>
      let resp := fetch off
      if resp.state = false then (.error "获取文件列表失败", n + 1)
      else if resp.data = [] then (.ok acc, n + 1)
      else
        if resp.count ≤ (acc ++ resp.data).length ∨ resp.data.length < limit then
          (.ok (acc ++ resp.data), n + 1)
        else getAllFilesAux fetch limit fuel (off + limit) (acc ++ resp.data) (n + 1)

/-- `Uploader._get_all_files` at its fixed page size 1150. -/
def getAllFiles (fetch : Nat → PageResp) (fuel : Nat) : Except String (List Nat) × Nat :=
  getAllFilesAux fetch 1150 fuel 0 [] 0

/-- An honest server over a fixed item list: each reply serves at most 1150
items from the requested offset and reports the true total count. -/
def pagedServer (items : List Nat) (off : Nat) : PageResp :=
  { state := true, data := (items.drop off).take 1150, count := items.length }

/-- Helper for C7: over a 2300-item folder, `_get_all_items` flattens the
listing in exactly 2 page fetches, for any sufficient fuel. -/
theorem getAllItems_two_pages (items : List Nat) (h : items.length = 2300) (fuel : Nat) :
    getAllItems (pagedServer items) (fuel + 2) = (.ok items, 2) := by
  have hlen1 : (items.take 1150).length = 1150 := by simp [h]
  have hlen2 : ((items.drop 1150).take 1150).length = 1150 := by simp [h]
  have htake2 : (items.drop 1150).take 1150 = items.drop 1150 := by
    apply List.take_of_length_le
    simp [h]
  have hne1 : ¬(items.take 1150 = []) := by
    intro hc; rw [hc] at hlen1; simp at hlen1
  have hne2 : ¬((items.drop 1150).take 1150 = []) := by
    intro hc; rw [hc] at hlen2; simp at hlen2
  unfold getAllItems
  rw [getAllItemsAux]
  simp only [pagedServer, List.drop_zero]
  rw [if_neg (by simp), if_neg hne1,
    if_neg (by simp only [List.nil_append, hlen1, h]; omega)]
  simp only [List.nil_append, hlen1]
  rw [getAllItemsAux]
  simp only [pagedServer]
  rw [if_neg (by simp), if_neg hne2,
    if_pos (by left; simp [htake2, h])]
  rw [htake2, List.take_append_drop]

/-- Helper for C7: the same two-fetch run for `_get_all_files`. -/
theorem getAllFiles_two_pages (items : List Nat) (h : items.length = 2300) (fuel : Nat) :
    getAllFiles (pagedServer items) (fuel + 2) = (.ok items, 2) := by
  have hlen1 : (items.take 1150).length = 1150 := by simp [h]
  have hlen2 : ((items.drop 1150).take 1150).length = 1150 := by simp [h]
  have htake2 : (items.drop 1150).take 1150 = items.drop 1150 := by
    apply List.take_of_length_le
    simp [h]
  have hne1 : ¬(items.take 1150 = []) := by
    intro hc; rw [hc] at hlen1; simp at hlen1
  have hne2 : ¬((items.drop 1150).take 1150 = []) := by
    intro hc; rw [hc] at hlen2; simp at hlen2
  unfold getAllFiles
  rw [getAllFilesAux]
  simp only [pagedServer, List.drop_zero]
  rw [if_neg (by simp), if_neg hne1,
    if_neg (by simp only [List.nil_append, hlen1, h]; omega)]
  simp only [List.nil_append, hlen1]
  rw [getAllFilesAux]
  simp only [pagedServer]
  rw [if_neg (by simp), if_neg hne2,
    if_pos (by left; simp [htake2, h])]
  rw [htake2, List.take_append_drop]

/-- C7: the pagination accumulates pages at the fixed ceiling 1150 and stops
in the current iteration exactly when the page fails, is empty, is short, or
brings the accumulated count up to the server-reported total; in particular
a folder reporting `count = 2300` served in full 1150-item pages is fully
flattened in exactly 2 page fetches, by both the downloader's and the
uploader's loop. -/
theorem pagination_two_fetches (items : List Nat) (h : items.length = 2300)
    (fuel : Nat) :
    getAllItems (pagedServer items) (fuel + 2) = (.ok items, 2) ∧
    getAllFiles (pagedServer items) (fuel + 2) = (.ok items, 2) ∧
    (∀ (fetch : Nat → PageResp) (limit off : Nat) (acc : List Nat) (n : Nat),
      (getAllItemsAux fetch limit 1 off acc n).1 ≠ .error "fuel exhausted" ↔
        ((fetch off).state = false ∨ (fetch off).data = [] ∨
         (fetch off).count ≤ acc.length + (fetch off).data.length ∨
         (fetch off).data.length < limit)) := by
  refine ⟨getAllItems_two_pages items h fuel, getAllFiles_two_pages items h fuel, ?_⟩
  intro fetch limit off acc n
  by_cases h1 : (fetch off).state = false
  · simp [getAllItemsAux, h1]
  · by_cases h2 : (fetch off).data = []
    · simp [getAllItemsAux, h1, h2]
    · by_cases h3 : (fetch off).count ≤ acc.length + (fetch off).data.length ∨
          (fetch off).data.length < limit
      · have h3l : (fetch off).count ≤ (acc ++ (fetch off).data).length ∨
            (fetch off).data.length < limit := by
          simpa using h3
        simp [getAllItemsAux, h1, h2, h3l, h3]
      · have h3l : ¬((fetch off).count ≤ (acc ++ (fetch off).data).length ∨
            (fetch off).data.length < limit) := by
          simpa using h3
        simp [getAllItemsAux, h1, h2, h3l, h3]

/-- C7, witness for `pagination_two_fetches`: the concrete server holding the
items `0, ..., 2299`. -/
theorem pagination_two_fetches_witness :
    (List.range 2300).length = 2300 ∧
    getAllItems (pagedServer (List.range 2300)) 2 = (.ok (List.range 2300), 2) ∧
    getAllFiles (pagedServer (List.range 2300)) 2 = (.ok (List.range 2300), 2) := by
  have h := pagination_two_fetches (List.range 2300) (by simp) 0
  exact ⟨by simp, h.1, h.2.1⟩

/-! ## Remote tree flattening and destination paths (`_collect_all_files`) -/

/-- Components of a path string as `pathlib` parses it: split at `'/'`,
dropping empty and `"."` parts (`PurePosixPath` collapses both; `".."` is
kept, unresolved). -/
def pathParts (s : String) : List String :=
  (splitSlash s).filter (fun c => c != "" && c != ".")

/-- Whether a POSIX path string is absolute. -/
def startsWithSlash (s : String) : Bool :=
  match s.data with
  | [] => false
  | c :: _ => c == '/'

/-- A Python `pathlib.Path`: an absolute flag plus normalized components. -/
structure PyPath where
  absolute : Bool
  comps : List String
  deriving Repr, DecidableEq

/-- Parse a path string as `pathlib.Path` does. -/
def parsePyPath (s : String) : PyPath :=
  ⟨startsWithSlash s, pathParts s⟩

/-- Python `base / Path(rel)`: an absolute right operand replaces the base,
otherwise components are concatenated (no `".."` resolution). -/
def joinPy (base : PyPath) (rel : String) : PyPath :=
  let p := parsePyPath rel
  if p.absolute then p else ⟨base.absolute, base.comps ++ p.comps⟩

/-- A remote listing entry as `_collect_all_files` classifies it: a file
(`fc == "1"` with a pick code) or a folder (`fc == "0"`) with its already
fetched subtree. -/
inductive RemoteNode where
  | file (fn : String) (pc : String)
  | dir (fn : String) (children : List RemoteNode)
  deriving Repr

/-- One entry of the flattened file list built by `_collect_all_files`
(Downloader.py lines 376-384). -/
structure CollectedFile where
  fileName : String
  pickCode : String
  relativePath : String
  targetPath : PyPath
  deriving Repr, DecidableEq

mutual

/-- `Downloader._collect_all_files`, one listing entry (Downloader.py lines
366-384): a folder is recursed into with `entry.name` appended to the
relative-path accumulator; a file is appended with `target_path :=
base_path / Path(relative)` — the remote name is joined as-is, with no
rejection or sanitisation. -/
def collectNode (basePath : PyPath) : RemoteNode → String → List CollectedFile
  | .file fn pc, cur =>
      let relative := if cur = "" then fn else cur ++ "/" ++ fn
      [⟨fn, pc, relative, joinPy basePath relative⟩]
  | .dir fn children, cur =>
      let relative := if cur = "" then fn else cur ++ "/" ++ fn
      collectList basePath children relative

/-- `Downloader._collect_all_files` over a listing, in listing order. -/
def collectList (basePath : PyPath) : List RemoteNode → String → List CollectedFile
  | [], _ => []
  | node :: rest, cur => collectNode basePath node cur ++ collectList basePath rest cur

end

/-- Splitting at a `'/'` boundary splits the two sides independently. -/
theorem splitSlashAux_append (ys : List Char) :
    ∀ (xs acc : List Char),
      splitSlashAux acc (xs ++ '/' :: ys) = splitSlashAux acc xs ++ splitSlashAux [] ys := by
  intro xs
  induction xs with
  | nil => intro acc; simp [splitSlashAux]
  | cons c rest ih =>
      intro acc
      by_cases hc : c = '/'
      · simp [splitSlashAux, hc, ih]
      · simp [splitSlashAux, hc, ih]

/-- A slash-free character list is a single segment. -/
theorem splitSlashAux_no_slash :
    ∀ (l acc : List Char), '/' ∉ l → splitSlashAux acc l = [acc.reverse ++ l] := by
  intro l
  induction l with
  | nil => intro acc _; simp [splitSlashAux]
  | cons c rest ih =>
      intro acc hn
      have hc : c ≠ '/' := fun h => hn (h ▸ List.mem_cons_self c rest)
      have hr : '/' ∉ rest := fun h => hn (List.mem_cons_of_mem c h)
      simp [splitSlashAux, hc, ih _ hr]

/-- `splitSlash` distributes over concatenation with a `"/"` separator. -/
theorem splitSlash_append (cur fn : String) :
    splitSlash (cur ++ "/" ++ fn) = splitSlash cur ++ splitSlash fn := by
  unfold splitSlash
  rw [String.data_append, String.data_append]
  have hsl : ("/" : String).data = ['/'] := rfl
  rw [hsl]
  have hl : cur.data ++ ['/'] ++ fn.data = cur.data ++ '/' :: fn.data := by simp
  rw [hl, splitSlashAux_append fn.data cur.data []]
  simp

/-- `pathParts` distributes over concatenation with a `"/"` separator. -/
theorem pathParts_append (cur fn : String) :
    pathParts (cur ++ "/" ++ fn) = pathParts cur ++ pathParts fn := by
  unfold pathParts
  rw [splitSlash_append, List.filter_append]

/-- A name is "safe" when it is nonempty, not a dot component, and contains
no slash — exactly the names that cannot traverse out of the save root. -/
def safeNameB (fn : String) : Bool :=
  fn != "" && fn != "." && fn != ".." && !(fn.data.contains '/')

/-- A safe name parses to the single component it is. -/
theorem pathParts_safe (fn : String) (h : safeNameB fn = true) : pathParts fn = [fn] := by
  simp only [safeNameB, Bool.and_eq_true, bne_iff_ne, ne_eq, Bool.not_eq_true'] at h
  obtain ⟨⟨⟨h1, h2⟩, h3⟩, h4⟩ := h
  have hns : '/' ∉ fn.data := by
    intro hm
    simp [List.contains_iff_exists_mem_beq] at h4
    exact h4 hm
  unfold pathParts splitSlash
  rw [splitSlashAux_no_slash fn.data [] hns]
  simp only [List.reverse_nil, List.nil_append, List.map_cons, List.map_nil]
  have hmk : String.mk fn.data = fn := rfl
  rw [hmk]
  simp [h1, h2]

/-- Appending a segment does not change absoluteness of a nonempty path. -/
theorem startsWithSlash_append (cur fn : String) (h : cur ≠ "") :
    startsWithSlash (cur ++ "/" ++ fn) = startsWithSlash cur := by
  have hd : cur.data ≠ [] := by
    intro hc
    exact h (String.ext hc)
  unfold startsWithSlash
  rw [String.data_append, String.data_append]
  cases hc : cur.data with
  | nil => exact absurd hc hd
  | cons c rest => simp

/-- A safe name is not an absolute path. -/
theorem startsWithSlash_safe (fn : String) (h : safeNameB fn = true) :
    startsWithSlash fn = false := by
  simp only [safeNameB, Bool.and_eq_true, bne_iff_ne, ne_eq, Bool.not_eq_true'] at h
  obtain ⟨⟨⟨h1, -⟩, -⟩, h4⟩ := h
  have hns : '/' ∉ fn.data := by
    intro hm
    simp [List.contains_iff_exists_mem_beq] at h4
    exact h4 hm
  unfold startsWithSlash
  cases hc : fn.data with
  | nil => rfl
  | cons c rest =>
      have hcs : c ≠ '/' := by
        intro he
        exact hns (by rw [hc, he]; exact List.mem_cons_self _ _)
      simp [hcs]

mutual

/-- Whether every name in a remote subtree is safe. -/
def nodeSafeB : RemoteNode → Bool
  | .file fn _ => safeNameB fn
  | .dir fn children => safeNameB fn && listSafeB children

/-- Whether every name in a remote listing's subtrees is safe. -/
def listSafeB : List RemoteNode → Bool
  | [] => true
  | n :: rest => nodeSafeB n && listSafeB rest

end

/-- Lexical `".."` resolution (as `os.path.normpath`): each `".."` pops the
preceding component. -/
def normComps (acc : List String) : List String → List String
  | [] => acc
  | c :: rest =>
      if c = ".." then normComps acc.dropLast rest
      else normComps (acc ++ [c]) rest

/-- Normalisation is the identity on dotdot-free component lists. -/
theorem normComps_no_dotdot :
    ∀ (l acc : List String), ".." ∉ l → normComps acc l = acc ++ l := by
  intro l
  induction l with
  | nil => intro acc _; simp [normComps]
  | cons c rest ih =>
      intro acc h
      have hc : c ≠ ".." := fun he => h (he ▸ List.mem_cons_self _ _)
      have hr : ".." ∉ rest := fun hm => h (List.mem_cons_of_mem _ hm)
      simp [normComps, hc, ih _ hr]

/-- A safe name is neither empty nor `".."`. -/
theorem safeNameB_ne (fn : String) (h : safeNameB fn = true) :
    fn ≠ "" ∧ fn ≠ ".." := by
  simp only [safeNameB, Bool.and_eq_true, bne_iff_ne, ne_eq] at h
  exact ⟨h.1.1.1, h.1.2⟩

/-- The empty relative-path accumulator has no components. -/
theorem pathParts_empty : pathParts "" = [] := rfl

/-- Extending the relative-path accumulator by a safe name keeps it relative
and dotdot-free and appends exactly one component. -/
theorem relative_invariant (cur fn : String) (hsafe : safeNameB fn = true)
    (hcur1 : startsWithSlash cur = false) (hcur2 : ".." ∉ pathParts cur) :
    startsWithSlash (if cur = "" then fn else cur ++ "/" ++ fn) = false ∧
    ".." ∉ pathParts (if cur = "" then fn else cur ++ "/" ++ fn) ∧
    pathParts (if cur = "" then fn else cur ++ "/" ++ fn) = pathParts cur ++ [fn] := by
  obtain ⟨hne, hnd⟩ := safeNameB_ne fn hsafe
  by_cases hc : cur = ""
  · subst hc
    rw [if_pos rfl]
    refine ⟨startsWithSlash_safe fn hsafe, ?_, ?_⟩
    · rw [pathParts_safe fn hsafe]
      simp [Ne.symm hnd]
    · rw [pathParts_safe fn hsafe, pathParts_empty]
      simp
  · rw [if_neg hc]
    refine ⟨?_, ?_, ?_⟩
    · rw [startsWithSlash_append cur fn hc]; exact hcur1
    · rw [pathParts_append, pathParts_safe fn hsafe]
      intro hm
      rcases List.mem_append.mp hm with hm1 | hm2
      · exact hcur2 hm1
      · simp at hm2; exact hnd hm2.symm
    · rw [pathParts_append, pathParts_safe fn hsafe]

mutual

/-- Invariant of the flatten over one node: with safe names and a relative,
dotdot-free accumulator, every collected destination is the base followed by
the (dotdot-free) relative components. -/
theorem collectNode_invariant (base : PyPath) (node : RemoteNode) (cur : String)
    (hs : nodeSafeB node = true) (h1 : startsWithSlash cur = false)
    (h2 : ".." ∉ pathParts cur) :
    ∀ r ∈ collectNode base node cur,
      r.targetPath.absolute = base.absolute ∧
      r.targetPath.comps = base.comps ++ pathParts r.relativePath ∧
      ".." ∉ pathParts r.relativePath := by
  cases node with
  | file fn pc =>
      intro r hr
      rw [nodeSafeB] at hs
      obtain ⟨hs1, hs2, hs3⟩ := relative_invariant cur fn hs h1 h2
      simp only [collectNode, List.mem_singleton] at hr
      subst hr
      refine ⟨?_, ?_, hs2⟩
      · simp [joinPy, parsePyPath, hs1]
      · simp [joinPy, parsePyPath, hs1]
  | dir fn children =>
      intro r hr
      rw [nodeSafeB, Bool.and_eq_true] at hs
      obtain ⟨hs1, hs2, hs3⟩ := relative_invariant cur fn hs.1 h1 h2
      simp only [collectNode] at hr
      exact collectList_invariant base children _ hs.2 hs1 hs2 r hr

/-- Invariant of the flatten over a listing. -/
theorem collectList_invariant (base : PyPath) (nodes : List RemoteNode) (cur : String)
    (hs : listSafeB nodes = true) (h1 : startsWithSlash cur = false)
    (h2 : ".." ∉ pathParts cur) :
    ∀ r ∈ collectList base nodes cur,
      r.targetPath.absolute = base.absolute ∧
      r.targetPath.comps = base.comps ++ pathParts r.relativePath ∧
      ".." ∉ pathParts r.relativePath := by
  cases nodes with
  | nil => intro r hr; simp [collectList] at hr
  | cons node rest =>
      intro r hr
      rw [listSafeB, Bool.and_eq_true] at hs
      simp only [collectList, List.mem_append] at hr
      rcases hr with hr | hr
      · exact collectNode_invariant base node cur hs.1 h1 h2 r hr
      · exact collectList_invariant base rest cur hs.2 h1 h2 r hr

end

/-- C5, amended: `_collect_all_files` joins remote names into the destination
with no rejection or sanitisation, so destinations are guaranteed under the
save root only for *safe* names: if every name in the tree is nonempty, not
`"."`/`".."` and slash-free, then every collected destination path stays
under the (dotdot-free) save root even after lexical `".."` resolution.  The
general guarantee claimed for *every* possible remote name is refuted by
`collect_traversal_counterexample`. -/
theorem collect_no_escape (base : PyPath) (nodes : List RemoteNode)
    (hsafe : listSafeB nodes = true) (hbase : ".." ∉ base.comps) :
    ∀ r ∈ collectList base nodes "",
      r.targetPath.absolute = base.absolute ∧
      base.comps <+: normComps [] r.targetPath.comps := by
  intro r hr
  have h := collectList_invariant base nodes "" hsafe rfl
    (by rw [pathParts_empty]; simp) r hr
  refine ⟨h.1, ?_⟩
  have hnd : ".." ∉ base.comps ++ pathParts r.relativePath := by
    intro hm
    rcases List.mem_append.mp hm with hm1 | hm2
    · exact hbase hm1
    · exact h.2.2 hm2
  rw [h.2.1, normComps_no_dotdot _ [] hnd]
  simp

/-- A remote listing whose single file is named `".."`. -/
def evilTree : List RemoteNode := [.file ".." "pc9"]

/-- The resolved local save root of the counterexample. -/
def saveRoot : PyPath := ⟨true, ["home", "save"]⟩

/-- C5, counterexample: a server-supplied file name `".."` flows into the
destination path unsanitised; after lexical resolution the destination
`/home/save/..` is `/home`, which is *not* under the save root `/home/save`,
refuting the claim that every remote name is rejected or sanitised. -/
theorem collect_traversal_counterexample :
    collectList saveRoot evilTree "" =
      [⟨"..", "pc9", "..", ⟨true, ["home", "save", ".."]⟩⟩] ∧
    normComps [] ["home", "save", ".."] = ["home"] ∧
    (["home", "save"].isPrefixOf (normComps [] ["home", "save", ".."])) = false := by
  refine ⟨rfl, rfl, rfl⟩

/-- C5, witness for `collect_no_escape` on a concrete safe tree. -/
theorem collect_no_escape_witness :
    listSafeB [.dir "d" [.file "a.txt" "p1"]] = true ∧
    (∀ r ∈ collectList ⟨true, ["root"]⟩ [.dir "d" [.file "a.txt" "p1"]] "",
      r.targetPath.absolute = true ∧
      ["root"] <+: normComps [] r.targetPath.comps) :=
  ⟨by decide, collect_no_escape ⟨true, ["root"]⟩ [.dir "d" [.file "a.txt" "p1"]]
    (by decide) (by decide)⟩

/-- C2, witness for `uploadFolderAgg_spec`: at the concrete completion list,
the first file's record is successful exactly because its worker returned. -/
theorem uploadFolderAgg_spec_witness :
    ("a.txt", (Except.ok true : Except String Bool)) ∈ completedOneFailure ∧
    ((uploadSingleFile "a.txt" (Except.ok true)).success = true ↔
      ∃ b, (Except.ok true : Except String Bool) = Except.ok b) :=
  ⟨List.mem_cons_self _ _,
   (uploadFolderAgg_spec completedOneFailure).2.2.2.2
     ("a.txt", Except.ok true) (List.mem_cons_self _ _)⟩

/-- C10, witness for `download_total_shape`: a failed `downurl` resolution on
a concrete environment yields exactly the catch-all failure record. -/
theorem download_total_shape_witness :
    download "p" "/d" none false { downurlResp := { state := false, data := [] } } =
      dlFailure "p" none [] false "获取下载地址失败" :=
  (download_total_shape "p" "/d" none false
    { downurlResp := { state := false, data := [] } }).2.2 rfl

end Cpan115
